import Mathlib

/-!
Shallow embedding of the Crusty music player core (queue, audio playback
engine, download coordinator, application loop) and proofs about it.

Source files embedded: src/player/queue.rs, src/player/audio.rs, src/ui/app.rs.

Modelling conventions:
- `VecDeque<Track>` and `Vec<Track>` become `List Track` (front of the
  VecDeque is the head of the list; `Vec::push`/`pop` work at the list's end).
- Wall-clock instants (`std::time::Instant`) and durations in seconds become
  rationals (`ℚ`); `Duration` values are nonnegative and both
  `Instant::duration_since` and `Duration::saturating_sub` saturate at zero,
  modelled with `max _ 0`.
- The rodio `Sink` is external: its presence is `Option Unit` and the value
  `sink.empty()` would return at an observation point is passed explicitly
  to `is_finished` as `sink_empty`.
- Fallible external steps (file decode, append to the sink, the blocking
  yt-dlp fetch) are modelled by explicit outcome parameters.
- `HashMap<String, String>` becomes an association list `List (String × String)`
  queried with `List.lookup`; `HashSet<String>` becomes a `List String`.
-/

namespace Crusty

/-- The `Track` from src/player/queue.rs: metadata of one playable track. -/
structure Track where
  video_id : String
  title : String
  duration : Nat
  uploader : String
  url : String
  local_file : Option String
deriving DecidableEq, Repr

/-- The `Track::new` from src/player/queue.rs. -/
def Track.new (video_id title : String) (duration : Nat) (uploader url : String) : Track :=
  { video_id := video_id, title := title, duration := duration,
    uploader := uploader, url := url, local_file := none }

/-- The `Queue` from src/player/queue.rs: pending tracks (head = next to play),
the currently playing track, and the play history (oldest first). -/
structure Queue where
  tracks : List Track
  current_track : Option Track
  history : List Track
deriving DecidableEq, Repr

/-- The `Queue::new`. -/
def Queue.new : Queue :=
  { tracks := [], current_track := none, history := [] }

/-- The `Queue::add`: push the track onto the back of the pending queue. -/
def Queue.add (q : Queue) (track : Track) : Queue :=
  { q with tracks := q.tracks ++ [track] }

/-- The `Queue::add_multiple`: add each track in order. -/
def Queue.add_multiple (q : Queue) (tracks : List Track) : Queue :=
  tracks.foldl Queue.add q

/-- The `Queue::next`: move `current_track` (if any) to the end of `history`,
then pop the front of `tracks` into `current_track`, returning it. -/
def Queue.next (q : Queue) : Option Track × Queue :=
  let hist :=
    match q.current_track with
    | some track => q.history ++ [track]
    | none => q.history
  match q.tracks with
  | track :: rest =>
      (some track, { tracks := rest, current_track := some track, history := hist })
  | [] =>
      (none, { tracks := [], current_track := none, history := hist })

/-- The `Queue::previous`: move `current_track` (if any) to the front of `tracks`,
then pop the back of `history` into `current_track`, returning it. -/
def Queue.previous (q : Queue) : Option Track × Queue :=
  let tracks1 :=
    match q.current_track with
    | some current => current :: q.tracks
    | none => q.tracks
  match q.history.getLast? with
  | some prev_track =>
      (some prev_track,
        { tracks := tracks1, current_track := some prev_track,
          history := q.history.dropLast })
  | none =>
      (none, { tracks := tracks1, current_track := none, history := q.history })

/-- The `Queue::clear`: drop all pending tracks; history and current are untouched. -/
def Queue.clear (q : Queue) : Queue :=
  { q with tracks := [] }

/-- The `Queue::start_or_next`: if nothing is current and the queue is non-empty,
pop the front directly into `current_track` without touching history;
otherwise behave like `next`. -/
def Queue.start_or_next (q : Queue) : Option Track × Queue :=
  if q.current_track.isNone ∧ ¬ q.tracks.isEmpty then
    match q.tracks with
    | track :: rest =>
        (some track, { q with tracks := rest, current_track := some track })
    | [] => (none, q)
  else
    q.next

/-- One navigation/mutation step applied to a queue, for stating the
conservation invariant over arbitrary call sequences. -/
inductive QueueOp where
  | add (t : Track)
  | add_multiple (ts : List Track)
  | next
  | previous
deriving Repr

/-- Apply one operation (the returned track of `next`/`previous` is dropped:
only the queue state matters for the invariant). -/
def Queue.applyOp (q : Queue) : QueueOp → Queue
  | .add t => q.add t
  | .add_multiple ts => q.add_multiple ts
  | .next => (q.next).2
  | .previous => (q.previous).2

/-- How many tracks an operation adds to the queue system. -/
def QueueOp.addedCount : QueueOp → Nat
  | .add _ => 1
  | .add_multiple ts => ts.length
  | .next => 0
  | .previous => 0

/-- The `history.len() + pending.len() + (1 if current else 0)`. -/
def Queue.totalTracks (q : Queue) : Nat :=
  q.history.length + q.tracks.length + (if q.current_track.isSome then 1 else 0)

/-- Run a sequence of operations from the empty queue. -/
def Queue.runOps (ops : List QueueOp) : Queue :=
  ops.foldl Queue.applyOp Queue.new

theorem Queue.totalTracks_add (q : Queue) (t : Track) :
    (q.add t).totalTracks = q.totalTracks + 1 := by
  simp [Queue.add, Queue.totalTracks]
  omega

theorem Queue.totalTracks_add_multiple (q : Queue) (ts : List Track) :
    (q.add_multiple ts).totalTracks = q.totalTracks + ts.length := by
  induction ts generalizing q with
  | nil => simp [Queue.add_multiple]
  | cons t ts ih =>
      simp only [Queue.add_multiple, List.foldl_cons] at *
      rw [ih (q.add t), Queue.totalTracks_add]
      simp
      omega

theorem Queue.totalTracks_next (q : Queue) :
    (q.next).2.totalTracks = q.totalTracks := by
  unfold Queue.next Queue.totalTracks
  cases q.current_track <;> cases q.tracks <;> simp <;> omega

theorem Queue.totalTracks_previous (q : Queue) :
    (q.previous).2.totalTracks = q.totalTracks := by
  unfold Queue.previous Queue.totalTracks
  cases hcur : q.current_track <;> cases hh : q.history.getLast?
  · simp
  · have hne : q.history ≠ [] := by
      intro h
      rw [h] at hh
      simp at hh
    have hlen : 0 < q.history.length := List.length_pos.mpr hne
    simp [List.length_dropLast]
    omega
  · simp
    omega
  · have hne : q.history ≠ [] := by
      intro h
      rw [h] at hh
      simp at hh
    have hlen : 0 < q.history.length := List.length_pos.mpr hne
    simp [List.length_dropLast]
    omega

theorem Queue.totalTracks_applyOp (q : Queue) (op : QueueOp) :
    (q.applyOp op).totalTracks = q.totalTracks + op.addedCount := by
  cases op with
  | add t => simpa [Queue.applyOp, QueueOp.addedCount] using q.totalTracks_add t
  | add_multiple ts =>
      simpa [Queue.applyOp, QueueOp.addedCount] using q.totalTracks_add_multiple ts
  | next => simpa [Queue.applyOp, QueueOp.addedCount] using q.totalTracks_next
  | previous => simpa [Queue.applyOp, QueueOp.addedCount] using q.totalTracks_previous

theorem Queue.totalTracks_foldl (ops : List QueueOp) (q : Queue) :
    (ops.foldl Queue.applyOp q).totalTracks =
      q.totalTracks + (ops.map QueueOp.addedCount).sum := by
  induction ops generalizing q with
  | nil => simp
  | cons op ops ih =>
      simp only [List.foldl_cons, List.map_cons, List.sum_cons]
      rw [ih, Queue.totalTracks_applyOp]
      omega

/-- C2: for every sequence of add/add_multiple/next/previous operations run
from the empty queue, history length + pending length + (1 if a current track
is set) equals the total number of tracks ever added: navigation neither
duplicates nor loses tracks. -/
theorem queue_conservation (ops : List QueueOp) :
    (Queue.runOps ops).totalTracks = (ops.map QueueOp.addedCount).sum := by
  unfold Queue.runOps
  rw [Queue.totalTracks_foldl]
  simp [Queue.new, Queue.totalTracks]

/-- C4: on any queue whose current track is set, `previous()` immediately
followed by `next()` returns and re-installs exactly the track that was
current before the `previous()` call. -/
theorem previous_then_next_roundtrip (q : Queue) (c : Track)
    (hcur : q.current_track = some c) :
    ((q.previous).2.next).1 = some c ∧
      ((q.previous).2.next).2.current_track = some c := by
  unfold Queue.previous Queue.next
  rw [hcur]
  cases hh : q.history.getLast? <;> simp

/-- Sample tracks for concrete evaluations. -/
def trackA : Track := Track.new "idA" "A" 180 "upA" "urlA"

def trackB : Track := Track.new "idB" "B" 200 "upB" "urlB"

def trackC : Track := Track.new "idC" "C" 120 "upC" "urlC"

/-- Witness for C4 at a concrete queue with current = B, history = [A],
pending = [C]. -/
theorem previous_then_next_roundtrip_witness :
    let q : Queue := { tracks := [trackC], current_track := some trackB,
                       history := [trackA] }
    ((q.previous).2.next).1 = some trackB ∧
      ((q.previous).2.next).2.current_track = some trackB :=
  previous_then_next_roundtrip
    { tracks := [trackC], current_track := some trackB, history := [trackA] }
    trackB rfl

/-- C5: `start_or_next()` with no current track and non-empty pending pops the
pending front directly into current, leaving history untouched; in every other
case (a current track is set, or pending is empty) it is exactly `next()`. -/
theorem start_or_next_spec (q : Queue) :
    (∀ t rest, q.current_track = none → q.tracks = t :: rest →
        q.start_or_next =
          (some t, { tracks := rest, current_track := some t,
                     history := q.history })) ∧
      (q.current_track ≠ none ∨ q.tracks = [] → q.start_or_next = q.next) := by
  constructor
  · intro t rest hcur htr
    unfold Queue.start_or_next
    rw [hcur, htr]
    simp
  · intro h
    unfold Queue.start_or_next
    rcases h with h | h
    · have : ¬ (q.current_track.isNone ∧ ¬ q.tracks.isEmpty) := by
        intro hc
        exact h (Option.isNone_iff_eq_none.mp hc.1)
      rw [if_neg this]
    · cases hcur : q.current_track
      · rw [if_neg]
        simp [h, hcur]
      · rw [if_neg]
        simp [hcur]

/-- Witness for C5 at pending = [A, B], current = none, empty history:
returns A, history stays empty, pending becomes [B]; and at the same queue
with current = C it agrees with `next()`. -/
theorem start_or_next_spec_witness :
    (Queue.new.add_multiple [trackA, trackB]).start_or_next =
        (some trackA, { tracks := [trackB], current_track := some trackA,
                        history := [] }) ∧
      ({ tracks := [trackA, trackB], current_track := some trackC,
         history := [] } : Queue).start_or_next =
        ({ tracks := [trackA, trackB], current_track := some trackC,
           history := [] } : Queue).next := by
  constructor
  · exact (start_or_next_spec (Queue.new.add_multiple [trackA, trackB])).1
      trackA [trackB] rfl rfl
  · exact (start_or_next_spec _).2 (Or.inl (by simp))

/-- C10: `clear()` empties the pending queue and changes nothing else: the
current track and the history are left exactly as they were. -/
theorem clear_spec (q : Queue) :
    (q.clear).tracks = [] ∧ (q.clear).current_track = q.current_track ∧
      (q.clear).history = q.history := by
  unfold Queue.clear
  exact ⟨rfl, rfl, rfl⟩

/-- The `PlayerState` from src/player/audio.rs. -/
inductive PlayerState where
  | Stopped
  | Playing
  | Paused
  | Loading
deriving DecidableEq, Repr

/-- The `AudioPlayer` from src/player/audio.rs. The rodio sink is external, so
only its presence is stored (`sink : Option Unit`); instants and second
counts are rationals. -/
structure AudioPlayer where
  sink : Option Unit
  state : PlayerState
  volume : Nat
  duration : ℚ
  current_title : String
  start_time : Option ℚ
  pause_time : Option ℚ
  total_paused_duration : ℚ
  current_file_path : Option String
  seek_position : Option ℚ
deriving DecidableEq, Repr

/-- The `AudioPlayer::get_time_pos`: elapsed playback seconds at instant `now`,
using the pause timestamp instead of `now` while paused and subtracting the
accumulated paused duration; every `Duration` subtraction saturates at 0. -/
def AudioPlayer.get_time_pos (p : AudioPlayer) (now : ℚ) : ℚ :=
  match p.start_time with
  | some start =>
      let elapsed := max (now - start) 0
      let elapsed :=
        match p.pause_time with
        | some pause_time => max (pause_time - start) 0
        | none => elapsed
      max (elapsed - p.total_paused_duration) 0
  | none => 0

/-- The `AudioPlayer::is_finished` evaluated at instant `now`; `sink_empty` is the
value `sink.empty()` returns at that moment (meaningful only when a sink is
present). -/
def AudioPlayer.is_finished (p : AudioPlayer) (sink_empty : Bool) (now : ℚ) : Bool :=
  match p.sink with
  | some _ =>
      if ¬ sink_empty then false
      else if p.state ≠ PlayerState.Playing then false
      else
        match p.start_time with
        | some _ => if p.get_time_pos now ≥ 2 then true else false
        | none => false
  | none => false

/-- Outcome of the decode-and-append sequence inside
`AudioPlayer::play_with_duration`: the file decode can succeed, return an
error, or panic, and the subsequent `sink.append` can itself panic (both
panics are caught with `catch_unwind`). In the source,
`decode_from_file` always reports a file duration of `0.0` on success
(computing it is a TODO), so the success constructor carries no duration. -/
inductive PlayOutcome where
  | decode_ok_append_ok
  | decode_ok_append_panic
  | decode_err
  | decode_panic
deriving DecidableEq, Repr

/-- The `AudioPlayer::play_with_duration` at instant `now` with the decode/append
outcome made explicit. Without a sink nothing happens. On success the state
becomes `Playing`, the start time is set to `now`, the pause bookkeeping is
reset and the file path is remembered; the stored duration prefers the
caller-supplied `known_duration` over the decoder's (always `0`). On any
failure the state becomes `Stopped` and the start time is cleared. -/
def AudioPlayer.play_with_duration (p : AudioPlayer) (file_path title : String)
    (known_duration : ℚ) (outcome : PlayOutcome) (now : ℚ) : AudioPlayer :=
  match p.sink with
  | none => p
  | some _ =>
      match outcome with
      | .decode_ok_append_ok =>
          let file_duration : ℚ := 0
          let duration := if known_duration > 0 then known_duration else file_duration
          { p with state := PlayerState.Playing, current_title := title,
                   duration := duration, start_time := some now,
                   pause_time := none, total_paused_duration := 0,
                   current_file_path := some file_path }
      | _ =>
          { p with state := PlayerState.Stopped, start_time := none }

/-- The `AudioPlayer::pause` at instant `now`: records the pause timestamp only
when currently `Playing`, then unconditionally sets the state to `Paused`
(the `sink.pause()` call has no effect on the modelled fields). -/
def AudioPlayer.pause (p : AudioPlayer) (now : ℚ) : AudioPlayer :=
  let p1 :=
    if p.state = PlayerState.Playing then { p with pause_time := some now } else p
  { p1 with state := PlayerState.Paused }

/-- The `AudioPlayer::resume` at instant `now`: folds the elapsed paused time into
the accumulator, clears the pause timestamp, and sets `Playing`. -/
def AudioPlayer.resume (p : AudioPlayer) (now : ℚ) : AudioPlayer :=
  let p1 :=
    match p.pause_time with
    | some pause_time =>
        { p with total_paused_duration :=
                   p.total_paused_duration + max (now - pause_time) 0,
                 pause_time := none }
    | none => p
  { p1 with state := PlayerState.Playing }

/-- The `AudioPlayer::seek`: no-op when no title is loaded; otherwise clamp the
target (negative becomes 0; above a positive known duration becomes the
duration) and store it as the pending seek position. -/
def AudioPlayer.seek (p : AudioPlayer) (seconds : ℚ) : AudioPlayer :=
  if p.current_title = "" then p
  else
    let target_position :=
      if seconds < 0 then 0
      else if p.duration > 0 ∧ seconds > p.duration then p.duration
      else seconds
    { p with seek_position := some target_position }

/-- The `AudioPlayer::apply_seek` at instant `now`: when both a pending seek
position and a remembered file path exist, replay the same file (same title
and duration) from the beginning, shift the recorded start time backward by
the seek offset, clear the pending position and return `true`; otherwise
return `false` without changing anything. -/
def AudioPlayer.apply_seek (p : AudioPlayer) (outcome : PlayOutcome) (now : ℚ) :
    Bool × AudioPlayer :=
  match p.seek_position, p.current_file_path with
  | some seek_pos, some file_path =>
      let p1 := p.play_with_duration file_path p.current_title p.duration outcome now
      let p2 :=
        match p1.start_time with
        | some start => { p1 with start_time := some (start - seek_pos) }
        | none => p1
      (true, { p2 with seek_position := none })
  | _, _ => (false, p)

/-- The clamp `seek` applies to its target when the duration is known
(positive): negative targets become 0, targets past the duration become the
duration. Used only to abbreviate theorem statements about `seek`. -/
def clampSeek (seconds duration : ℚ) : ℚ :=
  if seconds < 0 then 0 else if seconds > duration then duration else seconds

/-- C1: `is_finished` is true only when the sink reports empty, the state is
exactly `Playing`, a start time is recorded, and elapsed playback time
(excluding pauses) is at least the 2-second guard; in particular it is false
whenever the state is `Loading`, and false whenever elapsed time is below the
guard. -/
theorem is_finished_characterization (p : AudioPlayer) (sink_empty : Bool) (now : ℚ) :
    (p.is_finished sink_empty now = true →
        sink_empty = true ∧ p.state = PlayerState.Playing ∧
          p.start_time.isSome = true ∧ 2 ≤ p.get_time_pos now) ∧
      (p.state = PlayerState.Loading → p.is_finished sink_empty now = false) ∧
      (p.get_time_pos now < 2 → p.is_finished sink_empty now = false) := by
  unfold AudioPlayer.is_finished
  cases hs : p.sink with
  | none => simp
  | some u =>
      refine ⟨?_, ?_, ?_⟩
      · intro h
        by_cases he : sink_empty = true
        · rw [if_neg (by simp [he])] at h
          by_cases hst : p.state = PlayerState.Playing
          · rw [if_neg (by simp [hst])] at h
            cases hstart : p.start_time with
            | none => rw [hstart] at h; simp at h
            | some s =>
                rw [hstart] at h
                by_cases hge : p.get_time_pos now ≥ 2
                · exact ⟨he, hst, by simp [hstart], hge⟩
                · rw [if_neg hge] at h; simp at h
          · rw [if_pos (by simp [hst])] at h; simp at h
        · rw [if_pos (by simp [he])] at h; simp at h
      · intro hL
        rw [hL]
        by_cases he : sink_empty = true
        · rw [if_neg (by simp [he]), if_pos (by simp)]
        · rw [if_pos (by simp [he])]
      · intro hlt
        by_cases he : sink_empty = true
        · rw [if_neg (by simp [he])]
          by_cases hst : p.state = PlayerState.Playing
          · rw [if_neg (by simp [hst])]
            cases hstart : p.start_time with
            | none => simp
            | some s => rw [if_neg (by simpa using not_le.mpr hlt)]
          · rw [if_pos (by simp [hst])]
        · rw [if_pos (by simp [he])]

/-- A player observed mid-load: sink present, state `Loading`. -/
def playerLoading : AudioPlayer :=
  { sink := some (), state := PlayerState.Loading, volume := 100, duration := 180,
    current_title := "A", start_time := some 0, pause_time := none,
    total_paused_duration := 0, current_file_path := some "a.m4a",
    seek_position := none }

/-- A player one second into playback: sink present, state `Playing`. -/
def playerEarly : AudioPlayer :=
  { sink := some (), state := PlayerState.Playing, volume := 100, duration := 180,
    current_title := "A", start_time := some 0, pause_time := none,
    total_paused_duration := 0, current_file_path := some "a.m4a",
    seek_position := none }

/-- Witness for C1: a loading player with an empty sink is not finished, and a
playing player only one second in (below the 2-second guard) is not finished
either. -/
theorem is_finished_characterization_witness :
    playerLoading.is_finished true 5 = false ∧
      playerEarly.is_finished true 1 = false :=
  ⟨(is_finished_characterization playerLoading true 5).2.1 rfl,
   (is_finished_characterization playerEarly true 1).2.2 (by
      show playerEarly.get_time_pos 1 < 2
      norm_num [AudioPlayer.get_time_pos, playerEarly])⟩

/-- C6: when `play_with_duration` fails to decode the file or to append the
stream (including a caught panic in either step) on a player that has a sink,
the player ends `Stopped` with its start time cleared, and `is_finished` is
false afterwards at every observation. -/
theorem play_failure_stops (p : AudioPlayer) (file_path title : String)
    (known_duration : ℚ) (outcome : PlayOutcome) (now : ℚ)
    (hsink : p.sink.isSome = true)
    (hfail : outcome ≠ PlayOutcome.decode_ok_append_ok) :
    (p.play_with_duration file_path title known_duration outcome now).state =
        PlayerState.Stopped ∧
      (p.play_with_duration file_path title known_duration outcome now).start_time =
        none ∧
      ∀ (sink_empty : Bool) (t : ℚ),
        (p.play_with_duration file_path title known_duration outcome now).is_finished
            sink_empty t = false := by
  unfold AudioPlayer.play_with_duration
  cases hs : p.sink with
  | none => rw [hs] at hsink; simp at hsink
  | some u =>
      cases outcome with
      | decode_ok_append_ok => exact absurd rfl hfail
      | decode_ok_append_panic | decode_err | decode_panic =>
          refine ⟨rfl, rfl, ?_⟩
          intro sink_empty t
          unfold AudioPlayer.is_finished
          simp

/-- Witness for C6: a decode error on the early-playback player leaves it
stopped, with no start time, and never finished. -/
theorem play_failure_stops_witness :
    (playerEarly.play_with_duration "b.m4a" "B" 200 PlayOutcome.decode_err 7).state =
        PlayerState.Stopped ∧
      (playerEarly.play_with_duration "b.m4a" "B" 200
          PlayOutcome.decode_err 7).start_time = none ∧
      ∀ (sink_empty : Bool) (t : ℚ),
        (playerEarly.play_with_duration "b.m4a" "B" 200
            PlayOutcome.decode_err 7).is_finished sink_empty t = false :=
  play_failure_stops playerEarly "b.m4a" "B" 200 PlayOutcome.decode_err 7
    rfl (by simp)

/-- A stopped player (sink present, nothing loaded). -/
def playerStoppedIdle : AudioPlayer :=
  { sink := some (), state := PlayerState.Stopped, volume := 100, duration := 0,
    current_title := "", start_time := none, pause_time := none,
    total_paused_duration := 0, current_file_path := none,
    seek_position := none }

/-- Counterexample to C7 as stated: calling `pause()` on a `Stopped` player
does not leave the player state unchanged — the code unconditionally sets the
state to `Paused`. -/
theorem pause_changes_state_when_stopped :
    playerStoppedIdle.state = PlayerState.Stopped ∧
      (playerStoppedIdle.pause 0).state = PlayerState.Paused ∧
      (playerStoppedIdle.pause 0).state ≠ playerStoppedIdle.state := by
  refine ⟨rfl, rfl, ?_⟩
  simp [AudioPlayer.pause, playerStoppedIdle]

/-- C7 (amended): `pause()` records a pause timestamp only when the state is
`Playing` and leaves every timing field unchanged otherwise, but it always
sets the state to `Paused`: it is a no-op only when the state is already
`Paused`, while `Stopped` and `Loading` transition to `Paused`. -/
theorem pause_spec (p : AudioPlayer) (now : ℚ) :
    (p.pause now).state = PlayerState.Paused ∧
      (p.state = PlayerState.Playing →
        p.pause now = { p with state := PlayerState.Paused,
                               pause_time := some now }) ∧
      (p.state ≠ PlayerState.Playing →
        p.pause now = { p with state := PlayerState.Paused }) := by
  refine ⟨rfl, ?_, ?_⟩
  · intro h
    unfold AudioPlayer.pause
    rw [if_pos h]
  · intro h
    unfold AudioPlayer.pause
    rw [if_neg h]

/-- Witness for C7 (amended): pausing the playing player at instant 1 records
the timestamp; pausing the stopped player changes only the state. -/
theorem pause_spec_witness :
    playerEarly.pause 1 = { playerEarly with state := PlayerState.Paused,
                                             pause_time := some 1 } ∧
      playerStoppedIdle.pause 0 =
        { playerStoppedIdle with state := PlayerState.Paused } :=
  ⟨(pause_spec playerEarly 1).2.1 rfl,
   (pause_spec playerStoppedIdle 0).2.2 (by simp [playerStoppedIdle])⟩

/-- C9: with a loaded title, a positively known duration, a remembered source
file and a sink, `seek(target)` stores the clamp of the target into
`[0, duration]` as the pending seek position, and `apply_seek` (with the
reload decoding successfully at instant `now`) reloads the same file, ends up
`Playing` with the start time shifted back by exactly the stored offset, and
clears the pending position. -/
theorem seek_apply_seek_spec (p : AudioPlayer) (seconds now : ℚ) (f : String)
    (htitle : p.current_title ≠ "") (hdur : 0 < p.duration)
    (hfile : p.current_file_path = some f) (hsink : p.sink = some ()) :
    (p.seek seconds).seek_position = some (clampSeek seconds p.duration) ∧
      0 ≤ clampSeek seconds p.duration ∧
      clampSeek seconds p.duration ≤ p.duration ∧
      ((p.seek seconds).apply_seek PlayOutcome.decode_ok_append_ok now).1 = true ∧
      ((p.seek seconds).apply_seek PlayOutcome.decode_ok_append_ok now).2.start_time =
        some (now - clampSeek seconds p.duration) ∧
      ((p.seek seconds).apply_seek PlayOutcome.decode_ok_append_ok now).2.seek_position =
        none ∧
      ((p.seek seconds).apply_seek
          PlayOutcome.decode_ok_append_ok now).2.current_file_path = some f ∧
      ((p.seek seconds).apply_seek PlayOutcome.decode_ok_append_ok now).2.state =
        PlayerState.Playing ∧
      ((p.seek seconds).apply_seek PlayOutcome.decode_ok_append_ok now).2.duration =
        p.duration := by
  have hseek : p.seek seconds =
      { p with seek_position := some (clampSeek seconds p.duration) } := by
    unfold AudioPlayer.seek clampSeek
    rw [if_neg htitle]
    by_cases h0 : seconds < 0
    · rw [if_pos h0, if_pos h0]
    · rw [if_neg h0, if_neg h0]
      by_cases h1 : seconds > p.duration
      · rw [if_pos ⟨hdur, h1⟩, if_pos h1]
      · rw [if_neg (by intro hc; exact h1 hc.2), if_neg h1]
  have htb : 0 ≤ clampSeek seconds p.duration ∧
      clampSeek seconds p.duration ≤ p.duration := by
    unfold clampSeek
    by_cases h0 : seconds < 0
    · rw [if_pos h0]
      exact ⟨le_refl 0, le_of_lt hdur⟩
    · rw [if_neg h0]
      by_cases h1 : seconds > p.duration
      · rw [if_pos h1]
        exact ⟨le_of_lt hdur, le_refl _⟩
      · rw [if_neg h1]
        exact ⟨le_of_not_lt h0, le_of_not_lt h1⟩
  rw [hseek]
  refine ⟨rfl, htb.1, htb.2, ?_⟩
  unfold AudioPlayer.apply_seek
  rw [hfile]
  simp only
  unfold AudioPlayer.play_with_duration
  rw [hsink]
  simp [if_pos hdur]

/-- Witness for C9: the early-playback player, seek target 300 over a
180-second track, applied at instant 10: the pending position clamps to 180
and the start time ends at 10 − 180. -/
theorem seek_apply_seek_spec_witness :
    (playerEarly.seek 300).seek_position = some 180 ∧
      ((playerEarly.seek 300).apply_seek
          PlayOutcome.decode_ok_append_ok 10).2.start_time = some (10 - 180) ∧
      ((playerEarly.seek 300).apply_seek
          PlayOutcome.decode_ok_append_ok 10).2.seek_position = none := by
  have h := seek_apply_seek_spec playerEarly 300 10 "a.m4a"
    (by simp [playerEarly]) (by norm_num [playerEarly]) rfl rfl
  have h180 : clampSeek 300 playerEarly.duration = 180 := by
    norm_num [clampSeek, playerEarly]
  rw [h180] at h
  exact ⟨h.1, h.2.2.2.2.1, h.2.2.2.2.2.1⟩

/-- The download bookkeeping shared between the application loop and the
background fetch tasks (fields of `MusicPlayerApp` in src/ui/app.rs):
`active_downloads` counter, the video-id → cached-file map, the
video-id → failure-reason map, and the set of in-flight video ids. Locks
always succeed in this model (mutex poisoning is not represented). -/
structure DownloadState where
  active_downloads : Nat
  downloaded_files : List (String × String)
  failed_downloads : List (String × String)
  downloading_videos : List String
deriving DecidableEq, Repr

/-- The `HashMap::contains_key` on an association list. -/
def mapContainsKey (m : List (String × String)) (key : String) : Bool :=
  (m.lookup key).isSome

/-- The `MusicPlayerApp::spawn_download_with_limit` (the synchronous accept/reject
part): reject with no state change when the active count has reached 30, the
video id is already cached, it has a recorded failure, or it is already in
flight; on acceptance mark it in flight and bump the active counter. -/
def spawn_download_with_limit (s : DownloadState) (track : Track) :
    Bool × DownloadState :=
  if s.active_downloads ≥ 30 then (false, s)
  else if mapContainsKey s.downloaded_files track.video_id then (false, s)
  else if mapContainsKey s.failed_downloads track.video_id then (false, s)
  else if s.downloading_videos.contains track.video_id then (false, s)
  else
    (true,
      { s with downloading_videos := track.video_id :: s.downloading_videos,
               active_downloads := s.active_downloads + 1 })

/-- The tail of the spawned fetch task in `spawn_download_with_limit`: record
the result (cache entry on success, failure entry on error — a task join
error is also recorded as a failure), then decrement the active counter
(saturating) and remove the id from the in-flight set. The completion
message sent over the channel is the `(video_id, result)` pair itself. -/
def finish_download (s : DownloadState) (video_id : String)
    (result : Except String String) : DownloadState :=
  let s1 :=
    match result with
    | .ok file_path =>
        { s with downloaded_files := (video_id, file_path) :: s.downloaded_files }
    | .error e =>
        { s with failed_downloads := (video_id, e) :: s.failed_downloads }
  { s1 with active_downloads := s1.active_downloads - 1,
            downloading_videos := s1.downloading_videos.erase video_id }

/-- C3: the download coordinator's request operation rejects with no side
effect when at the 30-download ceiling, when the id is cached, when it has a
recorded failure, or when it is in flight; two immediate calls for the same
acceptable track launch exactly one fetch (the first accepts and marks the id
in flight with the counter bumped, the second rejects without further
change); and task completion — success or failure — removes the id from the
in-flight set (completely, when it held no duplicates) and decrements the
counter. -/
theorem spawn_download_with_limit_spec (s : DownloadState) (track : Track) :
    (s.active_downloads ≥ 30 → spawn_download_with_limit s track = (false, s)) ∧
      (mapContainsKey s.downloaded_files track.video_id = true →
        spawn_download_with_limit s track = (false, s)) ∧
      (mapContainsKey s.failed_downloads track.video_id = true →
        spawn_download_with_limit s track = (false, s)) ∧
      (s.downloading_videos.contains track.video_id = true →
        spawn_download_with_limit s track = (false, s)) ∧
      (s.active_downloads < 30 →
        mapContainsKey s.downloaded_files track.video_id = false →
        mapContainsKey s.failed_downloads track.video_id = false →
        s.downloading_videos.contains track.video_id = false →
        spawn_download_with_limit s track =
          (true,
            { s with downloading_videos := track.video_id :: s.downloading_videos,
                     active_downloads := s.active_downloads + 1 }) ∧
          spawn_download_with_limit (spawn_download_with_limit s track).2 track =
            (false, (spawn_download_with_limit s track).2)) ∧
      (∀ (result : Except String String),
        (finish_download s track.video_id result).active_downloads =
            s.active_downloads - 1 ∧
          (finish_download s track.video_id result).downloading_videos =
            s.downloading_videos.erase track.video_id ∧
          (s.downloading_videos.Nodup →
            track.video_id ∉
              (finish_download s track.video_id result).downloading_videos)) := by
  refine ⟨?_, ?_, ?_, ?_, ?_, ?_⟩
  · intro h
    unfold spawn_download_with_limit
    rw [if_pos h]
  · intro h
    unfold spawn_download_with_limit
    by_cases h30 : s.active_downloads ≥ 30
    · rw [if_pos h30]
    · rw [if_neg h30, if_pos h]
  · intro h
    unfold spawn_download_with_limit
    by_cases h30 : s.active_downloads ≥ 30
    · rw [if_pos h30]
    · rw [if_neg h30]
      by_cases hc : mapContainsKey s.downloaded_files track.video_id = true
      · rw [if_pos hc]
      · rw [if_neg hc, if_pos h]
  · intro h
    unfold spawn_download_with_limit
    by_cases h30 : s.active_downloads ≥ 30
    · rw [if_pos h30]
    · rw [if_neg h30]
      by_cases hc : mapContainsKey s.downloaded_files track.video_id = true
      · rw [if_pos hc]
      · rw [if_neg hc]
        by_cases hf : mapContainsKey s.failed_downloads track.video_id = true
        · rw [if_pos hf]
        · rw [if_neg hf, if_pos h]
  · intro h30 hc hf hd
    have haccept : spawn_download_with_limit s track =
        (true,
          { s with downloading_videos := track.video_id :: s.downloading_videos,
                   active_downloads := s.active_downloads + 1 }) := by
      unfold spawn_download_with_limit
      rw [if_neg (not_le.mpr h30), if_neg (by rw [hc]; simp),
        if_neg (by rw [hf]; simp), if_neg (by rw [hd]; simp)]
    refine ⟨haccept, ?_⟩
    rw [haccept]
    unfold spawn_download_with_limit
    by_cases h30' : s.active_downloads + 1 ≥ 30
    · rw [if_pos (by simpa using h30')]
    · rw [if_neg (by simpa using h30'), if_neg (by simpa using hc),
        if_neg (by simpa using hf), if_pos (by simp [List.contains_cons])]
  · intro result
    refine ⟨?_, ?_, ?_⟩
    · cases result <;> rfl
    · cases result <;> rfl
    · intro hnodup
      have : (finish_download s track.video_id result).downloading_videos =
          s.downloading_videos.erase track.video_id := by
        cases result <;> rfl
      rw [this]
      exact (List.Nodup.mem_erase_iff hnodup).mp.mt (by simp)

/-- A download state with one failed and one in-flight id. -/
def dlState0 : DownloadState :=
  { active_downloads := 1, downloaded_files := [("idC", "c.m4a")],
    failed_downloads := [("idD", "404")], downloading_videos := ["idB"] }

/-- Witness for C3: from `dlState0`, requesting track A is accepted and a
second immediate request for A is rejected with no further change; finishing
A's fetch with an error then removes it from the in-flight set and restores
the counter. -/
theorem spawn_download_with_limit_spec_witness :
    spawn_download_with_limit dlState0 trackA =
        (true, { dlState0 with downloading_videos := ["idA", "idB"],
                               active_downloads := 2 }) ∧
      spawn_download_with_limit
          (spawn_download_with_limit dlState0 trackA).2 trackA =
        (false, (spawn_download_with_limit dlState0 trackA).2) ∧
      (finish_download dlState0 trackA.video_id
          (Except.error "boom")).active_downloads = 0 := by
  have h := (spawn_download_with_limit_spec dlState0 trackA).2.2.2.2.1
    (by norm_num [dlState0]) (by decide) (by decide) (by decide)
  refine ⟨h.1, h.2, ?_⟩
  exact ((spawn_download_with_limit_spec dlState0 trackA).2.2.2.2.2
    (Except.error "boom")).1

/-- The slice of `MusicPlayerApp` state the download-completion branch of the
main loop reads and writes: the playback engine, the queue, the track the UI
is waiting to play, the currently-downloading label, the status line and the
shared download bookkeeping. -/
structure App where
  player : AudioPlayer
  queue : Queue
  pending_play_track : Option Track
  currently_downloading : Option String
  status_message : String
  downloads : DownloadState

/-- The `MusicPlayerApp::ensure_next_track_ready`: opportunistically request the
first ten pending tracks (`get_queue_slice(0, 10)`); only the download
bookkeeping changes. -/
def ensure_next_track_ready (app : App) : App :=
  let next_tracks := app.queue.tracks.take 10
  let downloads :=
    next_tracks.foldl (fun s t => (spawn_download_with_limit s t).2) app.downloads
  { app with downloads := downloads }

/-- The RETRY-PENDING block of the main loop (run after either completion
branch): if a track is pending, not cached and nothing is marked as
downloading, request it again and on acceptance record it as downloading. -/
def retry_pending (app : App) : App :=
  match app.pending_play_track with
  | some pending_track =>
      if ¬ mapContainsKey app.downloads.downloaded_files pending_track.video_id ∧
          app.currently_downloading = none then
        let r := spawn_download_with_limit app.downloads pending_track
        if r.1 then
          { app with downloads := r.2,
                     currently_downloading := some pending_track.title }
        else
          { app with downloads := r.2 }
      else app
  | none => app

/-- The download-completion branch of `MusicPlayerApp::run` (the
`download_rx.try_recv()` match): on success, if the completed id equals the
pending track's id, start playback of the downloaded file (at instant `now`,
with decode/append outcome `outcome`), clear the pending/downloading markers
and prefetch upcoming tracks; on failure for the pending id, surface the
error and clear the markers; a completion for any other id leaves everything
except the retry block untouched; both branches end with the retry block. -/
def handle_download_completion (app : App) (video_id : String)
    (result : Except String String) (outcome : PlayOutcome) (now : ℚ) : App :=
  match result with
  | .ok temp_file_path =>
      let app1 :=
        match app.pending_play_track with
        | some track =>
            if track.video_id = video_id then
              ensure_next_track_ready
                { app with
                    player := app.player.play_with_duration temp_file_path
                      track.title (track.duration : ℚ) outcome now,
                    status_message := "",
                    pending_play_track := none,
                    currently_downloading := none }
            else app
        | none => app
      retry_pending app1
  | .error e =>
      let app1 :=
        match app.pending_play_track with
        | some track =>
            if track.video_id = video_id then
              { app with
                  status_message := "Download failed: " ++ e,
                  pending_play_track := none,
                  currently_downloading := none }
            else app
        | none => app
      retry_pending app1

theorem retry_pending_player (app : App) : (retry_pending app).player = app.player := by
  unfold retry_pending
  cases app.pending_play_track
  · rfl
  · dsimp only
    split
    · split <;> rfl
    · rfl

theorem spawn_download_with_limit_failed_downloads (s : DownloadState) (t : Track) :
    (spawn_download_with_limit s t).2.failed_downloads = s.failed_downloads := by
  unfold spawn_download_with_limit
  split
  · rfl
  · split
    · rfl
    · split
      · rfl
      · split <;> rfl

theorem retry_pending_failed_downloads (app : App) :
    (retry_pending app).downloads.failed_downloads =
      app.downloads.failed_downloads := by
  unfold retry_pending
  cases app.pending_play_track
  · rfl
  · dsimp only
    split
    · split <;> simp [spawn_download_with_limit_failed_downloads]
    · rfl

/-- C8: a download completion whose video id differs from the id of the track
the UI is waiting to play (or arriving with no pending track at all) leaves
the playback engine untouched, for success and failure alike; and when a
fetch for such a track X fails, the failure recorded by the fetch task stays
in the failure map after the loop has processed the message, while the player
is unaffected. -/
theorem completion_mismatch_preserves_player (app : App) (X e file_path : String)
    (outcome : PlayOutcome) (now : ℚ)
    (hmis : ∀ t, app.pending_play_track = some t → t.video_id ≠ X) :
    (handle_download_completion app X (Except.ok file_path) outcome now).player =
        app.player ∧
      (handle_download_completion app X (Except.error e) outcome now).player =
        app.player ∧
      ((finish_download app.downloads X (Except.error e)).failed_downloads.lookup X =
        some e) ∧
      (handle_download_completion
          { app with downloads := finish_download app.downloads X (Except.error e) }
          X (Except.error e) outcome now).player = app.player ∧
      (handle_download_completion
          { app with downloads := finish_download app.downloads X (Except.error e) }
          X (Except.error e) outcome
          now).downloads.failed_downloads.lookup X = some e := by
  have hok : ∀ (app' : App), app'.pending_play_track = app.pending_play_track →
      app'.player = app.player →
      (handle_download_completion app' X (Except.ok file_path) outcome now).player =
        app.player := by
    intro app' hp hpl
    unfold handle_download_completion
    rw [retry_pending_player]
    rw [hp]
    cases hc : app.pending_play_track with
    | none => exact hpl
    | some t =>
        dsimp only
        rw [if_neg (hmis t hc)]
        exact hpl
  have herr : ∀ (app' : App), app'.pending_play_track = app.pending_play_track →
      app'.player = app.player →
      (handle_download_completion app' X (Except.error e) outcome now).player =
        app.player := by
    intro app' hp hpl
    unfold handle_download_completion
    rw [retry_pending_player]
    rw [hp]
    cases hc : app.pending_play_track with
    | none => exact hpl
    | some t =>
        dsimp only
        rw [if_neg (hmis t hc)]
        exact hpl
  have hlookup : (finish_download app.downloads X
      (Except.error e)).failed_downloads.lookup X = some e := by
    unfold finish_download
    simp [List.lookup]
  refine ⟨hok app rfl rfl, herr app rfl rfl, hlookup, herr _ rfl rfl, ?_⟩
  unfold handle_download_completion
  rw [retry_pending_failed_downloads]
  cases hc : app.pending_play_track with
  | none => exact hlookup
  | some t =>
      dsimp only
      rw [if_neg (hmis t hc)]
      exact hlookup

/-- The app about to be told that A's fetch failed while it waits for B:
pending track B, playback one second into another track. -/
def app0 : App :=
  { player := playerEarly, queue := Queue.new, pending_play_track := some trackB,
    currently_downloading := some "B", status_message := "", downloads := dlState0 }

/-- The `app0` after A's fetch task has recorded its failure. -/
def app0x : App :=
  { app0 with downloads := finish_download app0.downloads "idA" (Except.error "404") }

/-- Witness for C8: pending track B, failed completion for A's id: the player
(the early-playback player) is untouched and the failure map records A. -/
theorem completion_mismatch_preserves_player_witness :
    (handle_download_completion app0x "idA" (Except.error "404")
        PlayOutcome.decode_ok_append_ok 3).player = playerEarly ∧
      (handle_download_completion app0x "idA" (Except.error "404")
          PlayOutcome.decode_ok_append_ok
          3).downloads.failed_downloads.lookup "idA" = some "404" := by
  have h := completion_mismatch_preserves_player app0 "idA" "404" "a.m4a"
    PlayOutcome.decode_ok_append_ok 3
    (by
      intro t ht
      have h2 : some trackB = some t := ht
      rw [← Option.some.inj h2]
      decide)
  exact ⟨h.2.2.2.1, h.2.2.2.2⟩

end Crusty
